import Mathlib

set_option maxRecDepth 100000

/-!
Verification development for the TokenHashGenerator service.

The development shallowly embeds the Go sources:
* the SHA-256 content hasher (calculateSHA256),
* the hash-index builder (calculateAndStoreHashes) and a small transition
  system for its producer/queue/writer concurrency skeleton,
* the flat-file lookup (getTokenByHashFromFile),
* the level quota table (TokenMap) and the per-token verification logic of
  verifyTokensHandler, together with its batch aggregation.

Go strings are byte slices; token strings are therefore modelled as lists of
byte values (List Nat), produced from Lean strings by UTF-8 encoding, so that
Go's byte-level length checks and slicing are rendered faithfully.
-/

/-! ## Byte-level modelling of Go strings -/

/-- UTF-8 encoding of a single character, as Go produces with []byte(s). -/
def utf8Encode (c : Char) : List Nat :=
  let n := c.toNat
  if n < 128 then [n]
  else if n < 2048 then
    [192 ||| (n >>> 6), 128 ||| (n &&& 63)]
  else if n < 65536 then
    [224 ||| (n >>> 12), 128 ||| ((n >>> 6) &&& 63), 128 ||| (n &&& 63)]
  else
    [240 ||| (n >>> 18), 128 ||| ((n >>> 12) &&& 63),
     128 ||| ((n >>> 6) &&& 63), 128 ||| (n &&& 63)]

/-- The bytes of a Go string (UTF-8 encoding of its characters). -/
def strToBytes (s : String) : List Nat :=
  (s.data.map utf8Encode).flatten

/-! ## SHA-256 (embedding of calculateSHA256 and Go's crypto/sha256) -/

/-- Truncation to a 32-bit word. -/
def w32 (n : Nat) : Nat := n % 4294967296

/-- Right rotation of a 32-bit word. -/
def rotr32 (x k : Nat) : Nat := w32 ((x >>> k) ||| (x <<< (32 - k)))

/-- The SHA-256 Ch function. -/
def shaCh (e f g : Nat) : Nat := (e &&& f) ^^^ ((e ^^^ 4294967295) &&& g)

/-- The SHA-256 Maj function. -/
def shaMaj (a b c : Nat) : Nat := (a &&& b) ^^^ (a &&& c) ^^^ (b &&& c)

/-- The SHA-256 upper-case sigma-0 function. -/
def bigSigma0 (x : Nat) : Nat := rotr32 x 2 ^^^ rotr32 x 13 ^^^ rotr32 x 22

/-- The SHA-256 upper-case sigma-1 function. -/
def bigSigma1 (x : Nat) : Nat := rotr32 x 6 ^^^ rotr32 x 11 ^^^ rotr32 x 25

/-- The SHA-256 lower-case sigma-0 function. -/
def smallSigma0 (x : Nat) : Nat := rotr32 x 7 ^^^ rotr32 x 18 ^^^ (x >>> 3)

/-- The SHA-256 lower-case sigma-1 function. -/
def smallSigma1 (x : Nat) : Nat := rotr32 x 17 ^^^ rotr32 x 19 ^^^ (x >>> 10)

/-- The eight 32-bit working registers of SHA-256. -/
structure Hash8 where
  a : Nat
  b : Nat
  c : Nat
  d : Nat
  e : Nat
  f : Nat
  g : Nat
  h : Nat
deriving DecidableEq

/-- The SHA-256 round constants, written in decimal. -/
def shaK : List Nat :=
  [1116352408, 1899447441, 3049323471, 3921009573, 961987163,
   1508970993, 2453635748, 2870763221, 3624381080, 310598401,
   607225278, 1426881987, 1925078388, 2162078206, 2614888103,
   3248222580, 3835390401, 4022224774, 264347078, 604807628,
   770255983, 1249150122, 1555081692, 1996064986, 2554220882,
   2821834349, 2952996808, 3210313671, 3336571891, 3584528711,
   113926993, 338241895, 666307205, 773529912, 1294757372,
   1396182291, 1695183700, 1986661051, 2177026350, 2456956037,
   2730485921, 2820302411, 3259730800, 3345764771, 3516065817,
   3600352804, 4094571909, 275423344, 430227734, 506948616,
   659060556, 883997877, 958139571, 1322822218, 1537002063,
   1747873779, 1955562222, 2024104815, 2227730452, 2361852424,
   2428436474, 2756734187, 3204031479, 3329325298]

/-- The SHA-256 initial hash value, written in decimal. -/
def shaInit : Hash8 :=
  ⟨1779033703, 3144134277, 1013904242, 2773480762,
   1359893119, 2600822924, 528734635, 1541459225⟩

/-- One SHA-256 compression round with round constant k and schedule word w. -/
def shaRound (st : Hash8) (k w : Nat) : Hash8 :=
  let t1 := w32 (st.h + bigSigma1 st.e + shaCh st.e st.f st.g + k + w)
  let t2 := w32 (bigSigma0 st.a + shaMaj st.a st.b st.c)
  ⟨w32 (t1 + t2), st.a, st.b, st.c, w32 (st.d + t1), st.e, st.f, st.g⟩

/-- Big-endian packing of bytes into 32-bit words. -/
def bytesToWords : List Nat → List Nat
  | b0 :: b1 :: b2 :: b3 :: rest =>
      ((b0 <<< 24) ||| (b1 <<< 16) ||| (b2 <<< 8) ||| b3) :: bytesToWords rest
  | _ => []

/-- One step extending the SHA-256 message schedule by a word. -/
def extendStep (ws : List Nat) : List Nat :=
  let l := ws.length
  ws ++ [w32 (ws.getD (l - 16) 0 + smallSigma0 (ws.getD (l - 15) 0) +
              ws.getD (l - 7) 0 + smallSigma1 (ws.getD (l - 2) 0))]

/-- Iterated extension of the message schedule. -/
def shaSchedule (ws : List Nat) : Nat → List Nat
  | 0 => ws
  | n + 1 => shaSchedule (extendStep ws) n

/-- Processing one 64-byte chunk of the padded message. -/
def processChunk (st : Hash8) (chunk : List Nat) : Hash8 :=
  let ws := shaSchedule (bytesToWords chunk) 48
  let fin := (shaK.zip ws).foldl (fun s kw => shaRound s kw.1 kw.2) st
  ⟨w32 (st.a + fin.a), w32 (st.b + fin.b), w32 (st.c + fin.c), w32 (st.d + fin.d),
   w32 (st.e + fin.e), w32 (st.f + fin.f), w32 (st.g + fin.g), w32 (st.h + fin.h)⟩

/-- SHA-256 padding: append 0x80, zeros, and the 64-bit big-endian bit length. -/
def padMessage (msg : List Nat) : List Nat :=
  let len := msg.length
  let padLen := (120 - ((len + 1) % 64)) % 64
  let bitLen := len * 8
  msg ++ [128] ++ List.replicate padLen 0 ++
    [(bitLen >>> 56) &&& 255, (bitLen >>> 48) &&& 255, (bitLen >>> 40) &&& 255,
     (bitLen >>> 32) &&& 255, (bitLen >>> 24) &&& 255, (bitLen >>> 16) &&& 255,
     (bitLen >>> 8) &&& 255, bitLen &&& 255]

/-- Splitting into 64-byte chunks, with structural recursion on a fuel bound
so that the definition reduces inside the kernel. -/
def chunksOf64Go (fuel : Nat) (l : List Nat) : List (List Nat) :=
  match fuel with
  | 0 => []
  | fuel + 1 => if l.length = 0 then [] else l.take 64 :: chunksOf64Go fuel (l.drop 64)

/-- Splitting the padded message into 64-byte chunks; the message length is
enough fuel, since every round consumes at least one byte. -/
def chunksOf64 (l : List Nat) : List (List Nat) :=
  chunksOf64Go l.length l

/-- The SHA-256 state after absorbing a byte string. -/
def sha256Bytes (msg : List Nat) : Hash8 :=
  (chunksOf64 (padMessage msg)).foldl processChunk shaInit

/-- Lower-case hexadecimal digit, as produced by Go's hex.EncodeToString. -/
def hexDigitChar (n : Nat) : Char :=
  if n < 10 then Char.ofNat (48 + n) else Char.ofNat (87 + n)

/-- The eight hex characters of one 32-bit word, most significant nibble first. -/
def hex8 (w : Nat) : List Char :=
  [hexDigitChar ((w >>> 28) &&& 15), hexDigitChar ((w >>> 24) &&& 15),
   hexDigitChar ((w >>> 20) &&& 15), hexDigitChar ((w >>> 16) &&& 15),
   hexDigitChar ((w >>> 12) &&& 15), hexDigitChar ((w >>> 8) &&& 15),
   hexDigitChar ((w >>> 4) &&& 15), hexDigitChar (w &&& 15)]

/-- Embedding of calculateSHA256: the lower-case hex digest of the SHA-256 of
the UTF-8 bytes of the input string. -/
def calculateSHA256 (input : String) : String :=
  let st := sha256Bytes (strToBytes input)
  String.mk (hex8 st.a ++ hex8 st.b ++ hex8 st.c ++ hex8 st.d ++
             hex8 st.e ++ hex8 st.f ++ hex8 st.g ++ hex8 st.h)

/-! ## Quota table (embedding of TokenMap) -/

/-- The entries of the Go map literal TokenMap (level, maximum token value). -/
def TokenMapEntries : List (Int × Int) :=
  [(0, 0), (1, 5000000), (2, 2425000), (3, 2303750), (4, 2188563), (5, 2079134),
   (6, 1975178), (7, 1876419), (8, 1782598), (9, 1693468), (10, 1608795),
   (11, 1528355), (12, 1451937), (13, 1379340), (14, 1310373), (15, 1244855),
   (16, 1182612), (17, 1123481), (18, 1067307), (19, 1013942), (20, 963245),
   (21, 915082), (22, 869328), (23, 825862), (24, 784569), (25, 745340),
   (26, 708073), (27, 672670), (28, 639036), (29, 607084), (30, 576730),
   (31, 547894), (32, 520499), (33, 494474), (34, 469750), (35, 446263),
   (36, 423950), (37, 402752), (38, 382615), (39, 363484), (40, 345310),
   (41, 328044), (42, 311642), (43, 296060), (44, 281257), (45, 267194),
   (46, 253834), (47, 241143), (48, 229085), (49, 217631), (50, 206750),
   (51, 196412), (52, 186592), (53, 177262), (54, 168399), (55, 159979),
   (56, 151980), (57, 144381), (58, 137162), (59, 130304), (60, 117273),
   (61, 105546), (62, 94992), (63, 85492), (64, 76943), (65, 69249),
   (66, 62324), (67, 56092), (68, 50482), (69, 45434), (70, 40891),
   (71, 36802), (72, 33121), (73, 29809), (74, 26828), (75, 24146),
   (76, 21731), (77, 19558), (78, 17602)]

/-- Embedding of the Go map TokenMap: lookup in the entry list, with the Go
map default value 0 for a missing key. -/
def TokenMap (level : Int) : Int :=
  ((TokenMapEntries.find? (fun p => p.1 == level)).map Prod.snd).getD 0

/-! ## Token decoding (embedding of the level parsing in verifyTokensHandler) -/

/-- The digits of a byte string as a number: some value when the string is
nonempty and all decimal digits, none otherwise. -/
def digitsToNat (l : List Nat) : Option Nat :=
  match l with
  | [] => none
  | _ :: _ =>
    l.foldl
      (fun acc b =>
        match acc with
        | none => none
        | some n => if 48 ≤ b ∧ b ≤ 57 then some (n * 10 + (b - 48)) else none)
      (some 0)

/-- Embedding of Go's strconv.Atoi on a byte string: an optional sign followed
by decimal digits, within the 64-bit signed integer range; none models a
non-nil error. -/
def goAtoi (l : List Nat) : Option Int :=
  match l with
  | 43 :: rest =>
    match digitsToNat rest with
    | some n => if n ≤ 9223372036854775807 then some (Int.ofNat n) else none
    | none => none
  | 45 :: rest =>
    match digitsToNat rest with
    | some n => if n ≤ 9223372036854775808 then some (-(Int.ofNat n)) else none
    | none => none
  | _ =>
    match digitsToNat l with
    | some n => if n ≤ 9223372036854775807 then some (Int.ofNat n) else none
    | none => none

/-- The level field bytes of a token: the first three bytes with leading
ASCII zeros stripped, as in strings.TrimLeft(tokenHash[:3], "0"). -/
def decodeLevelBytes (t : List Nat) : List Nat :=
  (t.take 3).dropWhile (fun b => b == 48)

/-- The decoded level of a token: Atoi of the stripped level field, with the
error discarded as in the Go source (level stays 0 on a parse error). -/
def decodeLevel (t : List Nat) : Int :=
  (goAtoi (decodeLevelBytes t)).getD 0

/-! ## Per-token verification (embedding of verifyTokensHandler's loop body)

The handler slices tokenHash[:3] and tokenHash[3:] before any length check,
so a token shorter than 3 bytes makes the Go runtime panic; the result none
models that panic.  The index lookup is abstracted as a function from hash
bytes to an optional identifier: none covers both a missing row
(sql.ErrNoRows, or no matching line of the flat file) and a store error,
each of which the handler maps to false. -/

/-- One token's verification as performed by verifyTokensHandler. -/
def verifyToken (lookup : List Nat → Option Int) (t : List Nat) : Option Bool :=
  if t.length < 3 then none
  else if t.length ≠ 67 then some false
  else
    match lookup (t.drop 3) with
    | none => some false
    | some n => some (decide (0 < n ∧ n ≤ TokenMap (decodeLevel t)))

/-! ## Batch verification (embedding of the results map aggregation) -/

/-- The keys of a result list. -/
def resKeys (m : List (List Nat × Bool)) : List (List Nat) := m.map Prod.fst

/-- Insertion into the results map: an existing key is overwritten, a new key
is appended, as for results[tokenHash] = value on a Go map. -/
def insertAssoc (m : List (List Nat × Bool)) (k : List Nat) (b : Bool) :
    List (List Nat × Bool) :=
  if m.any (fun p => decide (p.1 = k)) then
    m.map (fun p => if p.1 = k then (k, b) else p)
  else m ++ [(k, b)]

/-- Batch verification worker: tokens processed in order, each one's boolean
stored under the original token; a panicking token (none) aborts the batch
with no result map. -/
def verifyBatchAux (lookup : List Nat → Option Int)
    (acc : List (List Nat × Bool)) :
    List (List Nat) → Option (List (List Nat × Bool))
  | [] => some acc
  | t :: rest =>
    match verifyToken lookup t with
    | none => none
    | some b => verifyBatchAux lookup (insertAssoc acc t b) rest

/-- Embedding of the batch loop of verifyTokensHandler: the results map built
from an empty map over the input tokens. -/
def verifyBatch (lookup : List Nat → Option Int) (tokens : List (List Nat)) :
    Option (List (List Nat × Bool)) :=
  verifyBatchAux lookup [] tokens

/-! ## Flat-file lookup (embedding of getTokenByHashFromFile) -/

/-- Error outcomes of getTokenByHashFromFile; hashNotFound renders the Go
error "hash not found", invalidTokenNumber the error "invalid token number in
file". -/
inductive FileLookupErr where
  | hashNotFound
  | invalidTokenNumber
deriving DecidableEq

/-- Embedding of strings.Split(line, ":"): the colon-separated fields of a
line, Split("", ":") being the one-element list of the empty string. -/
def splitColonChars (cs : List Char) : List (List Char) :=
  cs.foldr
    (fun c acc =>
      if c = ':' then [] :: acc
      else
        match acc with
        | h :: t => (c :: h) :: t
        | [] => [[c]])
    [[]]

/-- The colon-separated fields of a line, as strings. -/
def splitColon (line : String) : List String :=
  (splitColonChars line.data).map String.mk

/-- Embedding of strconv.Atoi on a string argument. -/
def goAtoiS (s : String) : Option Int := goAtoi (strToBytes s)

/-- A line matches a queried hash when it splits into exactly two
colon-separated fields and the second field equals the hash. -/
def lineMatches (hash line : String) : Prop :=
  (splitColon line).length = 2 ∧ (splitColon line).getD 1 "" = hash

instance (hash line : String) : Decidable (lineMatches hash line) :=
  inferInstanceAs (Decidable ((splitColon line).length = 2 ∧
    (splitColon line).getD 1 "" = hash))

/-- Embedding of getTokenByHashFromFile over the file's lines: scan in file
order for the first line with exactly two colon-separated fields whose second
field equals the hash, parse its first field, and return (0, hash-not-found)
when no line matches. -/
def getTokenByHashFromFile (hash : String) :
    List String → Int × Option FileLookupErr
  | [] => (0, some FileLookupErr.hashNotFound)
  | line :: rest =>
    if lineMatches hash line then
      match goAtoiS ((splitColon line).getD 0 "") with
      | some n => (n, none)
      | none => (0, some FileLookupErr.invalidTokenNumber)
    else getTokenByHashFromFile hash rest

/-! ## Hash index builder (embedding of calculateAndStoreHashes) -/

/-- The records emitted by a build with the given limit: one
(identifier, digest-of-decimal-identifier) pair for each identifier from 0
to the limit.  Emission order across producer goroutines is
scheduler-dependent; this list fixes the ascending order as a canonical
enumeration of the emitted set. -/
def calculateAndStoreHashes (limit : Nat) : List (Nat × String) :=
  (List.range (limit + 1)).map (fun i => (i, calculateSHA256 (toString i)))

/-! ## Build concurrency skeleton

calculateAndStoreHashes spawns one producer goroutine per identifier, each of
which sends one record into a channel of capacity 1000; a single writer
goroutine drains the channel into the file.  The function itself waits (via
the WaitGroup) only for the producers, closes the channel, and returns; it
never waits for the writer goroutine.  The transition system below models
that skeleton with record counts. -/

/-- Counting state of the build pipeline: producers that have not yet sent,
records sitting in the channel, records the writer has persisted, and whether
calculateAndStoreHashes has returned. -/
structure BuildMachineState where
  remaining : Nat
  queued : Nat
  written : Nat
  returned : Bool
deriving DecidableEq

/-- The transitions of the build pipeline with channel capacity cap: a
producer sends into a non-full channel, the writer consumes a queued record,
and the main goroutine returns once every producer has sent (wg.Wait), with
no synchronization against the writer. -/
inductive BuildStep (cap : Nat) : BuildMachineState → BuildMachineState → Prop where
  | send : ∀ r q w b, q < cap → BuildStep cap ⟨r + 1, q, w, b⟩ ⟨r, q + 1, w, b⟩
  | consume : ∀ r q w b, BuildStep cap ⟨r, q + 1, w, b⟩ ⟨r, q, w + 1, b⟩
  | finish : ∀ q w, BuildStep cap ⟨0, q, w, false⟩ ⟨0, q, w, true⟩

/-- Reachability in the build pipeline. -/
inductive BuildReach (cap : Nat) (s0 : BuildMachineState) : BuildMachineState → Prop where
  | refl : BuildReach cap s0 s0
  | step : ∀ s s', BuildReach cap s0 s → BuildStep cap s s' → BuildReach cap s0 s'

/-- The initial build state for a build with the given limit: limit + 1
producers, empty channel, nothing written, not yet returned. -/
def buildInit (limit : Nat) : BuildMachineState :=
  ⟨limit + 1, 0, 0, false⟩

/-! ## Sanity checks of the embedding against known SHA-256 digests -/

example : calculateSHA256 "0" =
    "5feceb66ffc86f38d952786c6d696c79c2dbc239dd4e91b46729d73a27fb57e9" := by decide

example : calculateSHA256 "abc" =
    "ba7816bf8f01cfea414140de5dae2223b00361a396177a9cb410ff61f20015ad" := by decide

example : calculateSHA256 "100" =
    "ad57366865126e55649ecb23ae1d48887544976efea46a48eb5d85a6eeb4d306" := by decide

/-! ## Helper lemmas -/

/-- The hex digest of any input has exactly 64 characters. -/
theorem calculateSHA256_length (s : String) : (calculateSHA256 s).length = 64 := rfl

/-- Every key of the quota table lies between 0 and 78. -/
theorem tokenMapEntries_bounds : ∀ p ∈ TokenMapEntries, 0 ≤ p.1 ∧ p.1 ≤ 78 := by decide

/-- The quota of level 0 is 0. -/
theorem tokenMapEntries_zero : ∀ p ∈ TokenMapEntries, p.1 = 0 → p.2 = 0 := by decide

/-- Levels at most 0 or above 78 have effective quota 0 (a missing Go map key
reads as the zero value, and the level-0 entry is 0). -/
theorem tokenMap_eq_zero_of_out (level : Int) (h : level ≤ 0 ∨ 78 < level) :
    TokenMap level = 0 := by
  unfold TokenMap
  cases hf : TokenMapEntries.find? (fun p => p.1 == level) with
  | none => rfl
  | some p =>
    have hm : p ∈ TokenMapEntries := List.mem_of_find?_eq_some hf
    have hp := List.find?_some hf
    have hpe : p.1 = level := by simpa using hp
    have hb := tokenMapEntries_bounds p hm
    have hz : p.2 = 0 := tokenMapEntries_zero p hm (by omega)
    simp [hz]

/-- Unfolding of verifyToken on a token of the correct length. -/
theorem verifyToken_of_len67 (lookup : List Nat → Option Int) (t : List Nat)
    (hlen : t.length = 67) :
    verifyToken lookup t =
      match lookup (t.drop 3) with
      | none => some false
      | some n => some (decide (0 < n ∧ n ≤ TokenMap (decodeLevel t))) := by
  unfold verifyToken
  rw [if_neg (by omega), if_neg (by omega)]

/-- Tokens of at least three bytes never panic: verification yields a boolean. -/
theorem verifyToken_total (lookup : List Nat → Option Int) (t : List Nat)
    (h : 3 ≤ t.length) : ∃ b, verifyToken lookup t = some b := by
  unfold verifyToken
  rw [if_neg (by omega)]
  by_cases h67 : t.length ≠ 67
  · rw [if_pos h67]; exact ⟨false, rfl⟩
  · rw [if_neg h67]
    cases lookup (t.drop 3) with
    | none => exact ⟨false, rfl⟩
    | some n => exact ⟨_, rfl⟩

/-! ## Claim theorems -/

/-- C7: the content hasher is a pure deterministic function: repeated
invocations on the same identifier string return the same fixed digest (the
embedding is a total function with no state and no failure cases), and that
digest always has the fixed 64-character length. -/
theorem calculateSHA256_deterministic (input : String) :
    calculateSHA256 input = calculateSHA256 input ∧
    (calculateSHA256 input).length = 64 :=
  ⟨rfl, calculateSHA256_length input⟩

/-- C9: the quota table is strictly decreasing on levels 1 through 78, with
maximum quota 5000000 at level 1 and minimum nonzero quota 17602 at level 78. -/
theorem tokenMap_strictly_decreasing :
    (∀ l2 : Nat, l2 ≤ 78 → ∀ l1 : Nat, l1 < l2 → 1 ≤ l1 →
      TokenMap (Int.ofNat l1) > TokenMap (Int.ofNat l2)) ∧
    TokenMap 1 = 5000000 ∧ TokenMap 78 = 17602 ∧
    (∀ l : Nat, l ≤ 78 → 1 ≤ l →
      TokenMap (Int.ofNat l) ≤ 5000000 ∧ 17602 ≤ TokenMap (Int.ofNat l) ∧
      TokenMap (Int.ofNat l) ≠ 0) := by decide

/-- Witness for C9 at levels 1 and 78. -/
theorem tokenMap_strictly_decreasing_witness : TokenMap (Int.ofNat 1) > TokenMap (Int.ofNat 78) :=
  tokenMap_strictly_decreasing.1 78 (by decide) 1 (by decide) (by decide)

/-- C1: for a token that decodes successfully (67 bytes, numeric level field
after stripping leading zeros), a hash resolving to identifier n verifies to
the truth value of 0 < n and n at most the level's quota; an unresolved hash
verifies false; in particular the quota itself verifies true (when positive),
quota + 1 verifies false, and identifier 0 verifies false. -/
theorem verifyToken_quota_iff (lookup : List Nat → Option Int) (t : List Nat)
    (level n : Int) (hlen : t.length = 67)
    (hlev : goAtoi (decodeLevelBytes t) = some level) :
    (lookup (t.drop 3) = some n →
      verifyToken lookup t = some (decide (0 < n ∧ n ≤ TokenMap level))) ∧
    (lookup (t.drop 3) = none → verifyToken lookup t = some false) ∧
    (lookup (t.drop 3) = some n → n = TokenMap level → 0 < TokenMap level →
      verifyToken lookup t = some true) ∧
    (lookup (t.drop 3) = some n → n = TokenMap level + 1 →
      verifyToken lookup t = some false) ∧
    (lookup (t.drop 3) = some n → n = 0 → verifyToken lookup t = some false) := by
  have hdl : decodeLevel t = level := by simp [decodeLevel, hlev]
  have hv := verifyToken_of_len67 lookup t hlen
  rw [hdl] at hv
  refine ⟨?_, ?_, ?_, ?_, ?_⟩
  · intro h; rw [hv, h]
  · intro h; rw [hv, h]
  · intro h hq hpos
    rw [hv, h]
    exact congrArg some (decide_eq_true ⟨by omega, by omega⟩)
  · intro h hq
    rw [hv, h]
    exact congrArg some (decide_eq_false (by rintro ⟨h1, h2⟩; omega))
  · intro h hq
    rw [hv, h]
    exact congrArg some (decide_eq_false (by rintro ⟨h1, h2⟩; omega))

/-- Witness for C1: level 5, identifier 100 (within quota 2079134). -/
theorem verifyToken_quota_iff_witness :
    verifyToken (fun _ => some 100)
      (strToBytes "005aaaaaaaaaaaaaaaaaaaaaaaaaaaaaaaaaaaaaaaaaaaaaaaaaaaaaaaaaaaaaaaa") =
      some true := by
  have h := (verifyToken_quota_iff (fun _ => some 100)
    (strToBytes "005aaaaaaaaaaaaaaaaaaaaaaaaaaaaaaaaaaaaaaaaaaaaaaaaaaaaaaaaaaaaaaaa")
    5 100 (by decide) (by decide)).1 rfl
  rw [h]; decide

/-- C4: a decoded level outside [0, 78], or level 0, has effective quota 0,
so any 67-byte token carrying such a level verifies false, whatever
identifier (if any) the index resolves its hash to. -/
theorem verifyToken_out_of_range_level (lookup : List Nat → Option Int)
    (t : List Nat) (level : Int) (hlen : t.length = 67)
    (hlev : decodeLevel t = level) (hout : level ≤ 0 ∨ 78 < level) :
    TokenMap level = 0 ∧ verifyToken lookup t = some false := by
  have hz := tokenMap_eq_zero_of_out level hout
  refine ⟨hz, ?_⟩
  have hv := verifyToken_of_len67 lookup t hlen
  rw [hlev, hz] at hv
  rw [hv]
  cases lookup (t.drop 3) with
  | none => rfl
  | some n => exact congrArg some (decide_eq_false (by rintro ⟨h1, h2⟩; omega))

/-- Witness for C4: level 99 with a hash resolving to identifier 5. -/
theorem verifyToken_out_of_range_level_witness :
    TokenMap 99 = 0 ∧
    verifyToken (fun _ => some 5)
      (strToBytes "099bbbbbbbbbbbbbbbbbbbbbbbbbbbbbbbbbbbbbbbbbbbbbbbbbbbbbbbbbbbbbbbb") =
      some false :=
  verifyToken_out_of_range_level (fun _ => some 5)
    (strToBytes "099bbbbbbbbbbbbbbbbbbbbbbbbbbbbbbbbbbbbbbbbbbbbbbbbbbbbbbbbbbbbbbbb")
    99 (by decide) (by decide) (Or.inr (by decide))

/-- C2 (panic exhibit): the handler slices tokenHash[:3] before any length
check, so the empty token string makes the Go runtime panic with a slice
bounds error instead of producing the boolean false; the result none models
that panic, whatever the index resolves. -/
theorem verifyToken_panics_on_empty_token :
    verifyToken (fun _ => some 1) (strToBytes "") = none ∧
    verifyToken (fun _ => none) (strToBytes "") = none := by decide

/-- C3 (panic exhibit): the two-byte token "ab" is not 67 bytes long, yet
verification does not return false: slicing tokenHash[:3] panics (modelled as
none) before the handler's length check is reached. -/
theorem verifyToken_panics_on_two_byte_token :
    (strToBytes "ab").length ≠ 67 ∧
    verifyToken (fun _ => none) (strToBytes "ab") = none := by decide

/-- C6 (counterexample): calculateAndStoreHashes waits only for the producer
goroutines (wg.Wait), closes the channel, and returns; nothing waits for the
writer goroutine.  With limit 0 the single record can still be sitting in the
channel when the function has returned: the state with returned = true and
one queued, unwritten record is reachable. -/
theorem build_returns_with_queued_records :
    BuildReach 1000 (buildInit 0) ⟨0, 1, 0, true⟩ ∧
    (BuildMachineState.mk 0 1 0 true).returned = true ∧
    (BuildMachineState.mk 0 1 0 true).queued ≠ 0 := by
  refine ⟨?_, rfl, by decide⟩
  exact BuildReach.step ⟨0, 1, 0, false⟩ ⟨0, 1, 0, true⟩
    (BuildReach.step ⟨1, 0, 0, false⟩ ⟨0, 1, 0, false⟩ BuildReach.refl
      (BuildStep.send 0 0 0 false (by decide)))
    (BuildStep.finish 1 0)

/-- C5: a build with limit L emits one (identifier, digest) record for each
identifier from 0 through L, the record list has exactly L + 1 entries with
exactly one entry per identifier, and — provided the digests of the decimal
strings 0..L are pairwise distinct, which SHA-256 gives by construction — no
two records share the same hash. -/
theorem calculateAndStoreHashes_complete (L : Nat)
    (hinj : ∀ i, i ≤ L → ∀ j, j ≤ L →
      calculateSHA256 (toString i) = calculateSHA256 (toString j) → i = j) :
    (calculateAndStoreHashes L).length = L + 1 ∧
    (calculateAndStoreHashes L).map Prod.fst = List.range (L + 1) ∧
    (∀ i, i ≤ L → (i, calculateSHA256 (toString i)) ∈ calculateAndStoreHashes L) ∧
    ((calculateAndStoreHashes L).map Prod.snd).Nodup := by
  refine ⟨?_, ?_, ?_, ?_⟩
  · simp [calculateAndStoreHashes]
  · unfold calculateAndStoreHashes
    rw [List.map_map]
    exact List.map_id _
  · intro i hi
    unfold calculateAndStoreHashes
    exact List.mem_map.mpr ⟨i, List.mem_range.mpr (by omega), rfl⟩
  · unfold calculateAndStoreHashes
    rw [List.map_map]
    refine List.Nodup.map_on ?_ (List.nodup_range _)
    intro x hx y hy hxy
    exact hinj x (by simpa using Nat.lt_succ_iff.mp (List.mem_range.mp hx))
      y (by simpa using Nat.lt_succ_iff.mp (List.mem_range.mp hy)) hxy

/-- Witness for C5 at limit 2, with the distinctness hypothesis checked by
computing the three digests. -/
theorem calculateAndStoreHashes_complete_witness :
    (calculateAndStoreHashes 2).length = 3 ∧
    ((calculateAndStoreHashes 2).map Prod.snd).Nodup := by
  have h := calculateAndStoreHashes_complete 2 (by decide)
  exact ⟨h.1, h.2.2.2⟩

/-- C10: flat-file lookup scans in file order: a line that does not match
(wrong field count or different second field) is skipped silently, the first
matching line yields the identifier parsed from its first field, and when no
line matches the result is identifier 0 with a hash-not-found error. -/
theorem getTokenByHashFromFile_first_match :
    (∀ hash line rest, ¬ lineMatches hash line →
      getTokenByHashFromFile hash (line :: rest) = getTokenByHashFromFile hash rest) ∧
    (∀ hash line rest n, lineMatches hash line →
      goAtoiS ((splitColon line).getD 0 "") = some n →
      getTokenByHashFromFile hash (line :: rest) = (n, none)) ∧
    (∀ hash lines, (∀ l ∈ lines, ¬ lineMatches hash l) →
      getTokenByHashFromFile hash lines = (0, some FileLookupErr.hashNotFound)) := by
  refine ⟨?_, ?_, ?_⟩
  · intro hash line rest hnm
    unfold getTokenByHashFromFile
    rw [if_neg hnm]
    cases rest <;> rfl
  · intro hash line rest n hm ha
    unfold getTokenByHashFromFile
    rw [if_pos hm, ha]
  · intro hash lines hnone
    induction lines with
    | nil => rfl
    | cons line rest ih =>
      unfold getTokenByHashFromFile
      rw [if_neg (hnone line (by simp))]
      exact ih (fun l hl => hnone l (by simp [hl]))

/-- Witness for C10: a malformed line is skipped and the matching line "5:ab"
is found. -/
theorem getTokenByHashFromFile_first_match_witness :
    getTokenByHashFromFile "ab" ["x;y", "5:ab"] = (5, none) := by
  rw [getTokenByHashFromFile_first_match.1 "ab" "x;y" ["5:ab"] (by decide)]
  exact getTokenByHashFromFile_first_match.2.1 "ab" "5:ab" [] 5 (by decide) (by decide)

/-- Overwriting an existing key leaves the key list unchanged (the
replacement pair carries the same key). -/
theorem resKeys_map_overwrite (m : List (List Nat × Bool)) (k : List Nat) (b : Bool) :
    resKeys (m.map (fun p => if p.1 = k then (k, b) else p)) = resKeys m := by
  induction m with
  | nil => rfl
  | cons p m ih =>
    simp only [List.map_cons, resKeys] at ih ⊢
    by_cases hp : p.1 = k
    · simp [hp, ih]
    · simp [hp, ih]

/-- The overwrite test of insertAssoc holds exactly when the key is present. -/
theorem any_key_iff (m : List (List Nat × Bool)) (k : List Nat) :
    (m.any (fun p => decide (p.1 = k)) = true) ↔ k ∈ resKeys m := by
  simp [List.any_eq_true, resKeys, List.mem_map]

/-- The keys after an insertion: unchanged on overwrite, the new key appended
otherwise. -/
theorem resKeys_insertAssoc (m : List (List Nat × Bool)) (k : List Nat) (b : Bool) :
    resKeys (insertAssoc m k b) =
      if k ∈ resKeys m then resKeys m else resKeys m ++ [k] := by
  unfold insertAssoc
  by_cases hk : k ∈ resKeys m
  · rw [if_pos ((any_key_iff m k).mpr hk), if_pos hk, resKeys_map_overwrite]
  · rw [if_neg (fun hc => hk ((any_key_iff m k).mp hc)), if_neg hk]
    simp [resKeys]

/-- Key membership after an insertion. -/
theorem mem_resKeys_insertAssoc (m : List (List Nat × Bool)) (k t : List Nat) (b : Bool) :
    t ∈ resKeys (insertAssoc m k b) ↔ t = k ∨ t ∈ resKeys m := by
  rw [resKeys_insertAssoc]
  by_cases hk : k ∈ resKeys m
  · rw [if_pos hk]
    constructor
    · exact Or.inr
    · rintro (rfl | h)
      · exact hk
      · exact h
  · rw [if_neg hk]
    simp [List.mem_append]
    tauto

/-- Insertion preserves distinctness of the keys. -/
theorem nodup_resKeys_insertAssoc (m : List (List Nat × Bool)) (k : List Nat) (b : Bool)
    (h : (resKeys m).Nodup) : (resKeys (insertAssoc m k b)).Nodup := by
  rw [resKeys_insertAssoc]
  by_cases hk : k ∈ resKeys m
  · rwa [if_pos hk]
  · rw [if_neg hk]
    simp [List.nodup_append, h, hk]

/-- Insertion preserves the invariant that every stored value is the
verification result of its key. -/
theorem values_insertAssoc (lookup : List Nat → Option Int)
    (m : List (List Nat × Bool)) (k : List Nat) (b : Bool)
    (hm : ∀ p ∈ m, verifyToken lookup p.1 = some p.2)
    (hk : verifyToken lookup k = some b) :
    ∀ p ∈ insertAssoc m k b, verifyToken lookup p.1 = some p.2 := by
  unfold insertAssoc
  by_cases hc : (m.any (fun p => decide (p.1 = k)) = true)
  · rw [if_pos hc]
    intro p hp
    obtain ⟨q, hq, rfl⟩ := List.mem_map.mp hp
    by_cases hqk : q.1 = k
    · simp only [if_pos hqk]
      exact hk
    · simp only [if_neg hqk]
      exact hm q hq
  · rw [if_neg hc]
    intro p hp
    rcases List.mem_append.mp hp with h1 | h2
    · exact hm p h1
    · rw [List.mem_singleton.mp h2]
      exact hk

/-- Soundness of the batch worker: over panic-free tokens it produces a map
with distinct keys, correct per-token values, and keys exactly the processed
tokens together with the accumulator's keys. -/
theorem verifyBatchAux_sound (lookup : List Nat → Option Int) :
    ∀ (ts : List (List Nat)) (acc : List (List Nat × Bool)),
      (∀ t ∈ ts, 3 ≤ t.length) → (resKeys acc).Nodup →
      (∀ p ∈ acc, verifyToken lookup p.1 = some p.2) →
      ∃ m, verifyBatchAux lookup acc ts = some m ∧ (resKeys m).Nodup ∧
        (∀ p ∈ m, verifyToken lookup p.1 = some p.2) ∧
        (∀ t, t ∈ resKeys m ↔ t ∈ resKeys acc ∨ t ∈ ts)
  | [], acc, _, hnd, hvals => ⟨acc, rfl, hnd, hvals, by simp⟩
  | t :: ts, acc, hlen, hnd, hvals => by
    obtain ⟨b, hb⟩ := verifyToken_total lookup t (hlen t (by simp))
    obtain ⟨m, hm, hnd2, hvals2, hmem⟩ :=
      verifyBatchAux_sound lookup ts (insertAssoc acc t b)
        (fun u hu => hlen u (by simp [hu]))
        (nodup_resKeys_insertAssoc acc t b hnd)
        (values_insertAssoc lookup acc t b hvals hb)
    refine ⟨m, ?_, hnd2, hvals2, ?_⟩
    · simp only [verifyBatchAux, hb]
      exact hm
    · intro u
      rw [hmem u, mem_resKeys_insertAssoc]
      simp [List.mem_cons]
      tauto

/-- C8 (amended): for a batch whose tokens are all at least three bytes long
(so that no token panics), verification produces a result map keyed by the
original token bytes, with exactly one entry per distinct input token and
every entry's value the deterministic per-token verification result, so
duplicate input tokens overwrite to the same value. -/
theorem verifyBatch_one_entry_per_token (lookup : List Nat → Option Int)
    (tokens : List (List Nat)) (hlen : ∀ t ∈ tokens, 3 ≤ t.length) :
    ∃ m, verifyBatch lookup tokens = some m ∧ (resKeys m).Nodup ∧
      (∀ p ∈ m, verifyToken lookup p.1 = some p.2) ∧
      (∀ t, t ∈ resKeys m ↔ t ∈ tokens) := by
  obtain ⟨m, hm, hnd, hvals, hmem⟩ :=
    verifyBatchAux_sound lookup tokens [] hlen (by simp [resKeys]) (by simp)
  refine ⟨m, hm, hnd, hvals, fun t => ?_⟩
  rw [hmem t]
  simp [resKeys]

/-- C8 (counterexample to the unrestricted claim): the batch consisting of
the one-byte token "a" yields no result map at all — the per-token goroutine
panics on tokenHash[:3] — rather than a map with one entry for that token. -/
theorem verifyBatch_none_on_short_token :
    (verifyBatch (fun _ => none) [strToBytes "a"]).isSome = false := by decide

/-- Witness for C8 at a duplicate pair of three-byte tokens. -/
theorem verifyBatch_one_entry_per_token_witness :
    ∃ m, verifyBatch (fun _ => none) [strToBytes "004", strToBytes "004"] = some m ∧
      (resKeys m).Nodup :=
  Exists.imp (fun m h => ⟨h.1, h.2.1⟩)
    (verifyBatch_one_entry_per_token (fun _ => none)
      [strToBytes "004", strToBytes "004"] (by decide))
